import Mathlib

/-!
Shallow embedding of the nawdex_analysis data-collection pipeline
(src/nawdex_analysis/io/collector.py) and of the region dispatch of
src/nawdex_analysis/plot/nawdex_map.py, with theorems checking the
natural-language specification of the repository against the code.

Modelling conventions:
* An xarray Dataset is a `Dataset`: explicit coordinate axes (`time`,
  `idname`, and an optional `ct` axis) plus a value function; a value of
  `none` models NaN or a combination absent after a union join.  The
  `expname` variable (a string variable along `idname`) is kept as a
  separate field.
* Timestamps are minutes on a linear clock; one calendar day is
  `minutesPerDay` minutes, and the `%Y%m%d` day stamp of a timestamp is its
  day number `t / minutesPerDay`.
* `xr.open_dataset` is a lookup in an abstract file system `Env.fs`, keyed
  by the file-format template, the file-part and the name substituted into
  the final format slot; a missing file raises, modelled by `Except`.
  Every collector also returns the list of file keys it tried to open, in
  order, so that claims about file access can be stated.
* Python exceptions are `XErr` values carried by `Except`.  The blanket
  `try`/`except` blocks of `get_stat4set` catch every `XErr`.
* `xr.merge` / `xr.concat` are union joins.  The outer join of the
  underlying alignment returns the union of differing coordinate indexes in
  sorted order (as pandas does), modelled by the canonical sorted union
  `canon`/`listUnion`; an equal index, which pandas would return unchanged,
  is canonicalized too.  `xr.merge` of a list is one n-ary join: a cell
  takes the value of the first input whose own grid contains it (the real
  library raises a merge conflict on disagreeing inputs instead; every call
  site in the module tags its inputs with distinct `idname` values, so the
  situation is not exercised), and an input without a `ct` dimension
  broadcasts over `ct`.
-/

namespace NawdexAnalysis

/-- Identity of one data file: the file-format template, the file-part that
is embedded into it, and the name substituted into the final format slot
(an experiment name, or a meteosat day stamp for observation files).  All
paths share the process-wide base directory from the config module, so it
is not part of the key. -/
structure FKey where
  file_format : String
  file_part : String
  slot : String
deriving DecidableEq

/-- Python exceptions that the embedded code can raise. -/
inductive XErr where
  | valueError (msg : String)
  | fileNotFound (key : FKey)
  | keyError
  | unboundLocal
deriving DecidableEq

/-- Whether an `Except` value is a success. -/
def exceptIsOk {α : Type} : Except XErr α → Bool
  | .ok _ => true
  | .error _ => false

/-- First-some choice on options (how a union join combines overlapping
variables: the earlier input wins). -/
def optOr {α : Type} : Option α → Option α → Option α
  | some a, _ => some a
  | none, b => b

/-- Insertion into a sorted list: the sorting step of the canonical sorted
index form below. -/
def insertSorted {α : Type} [LinearOrder α] (a : α) : List α → List α
  | [] => [a]
  | b :: bs => if a ≤ b then a :: b :: bs else b :: insertSorted a bs

/-- The canonical form of a coordinate index: duplicates removed, values
sorted ascending — the form in which the outer join of the underlying
alignment returns the union of differing indexes. -/
def canon {α : Type} [DecidableEq α] [LinearOrder α] (l : List α) : List α :=
  l.dedup.foldr insertSorted []

/-- Union of two coordinate axes: the sorted union produced by the outer
join.  (For two equal indexes pandas returns the index unchanged instead;
the model canonicalizes that edge case too.) -/
def listUnion {α : Type} [DecidableEq α] [LinearOrder α]
    (xs ys : List α) : List α :=
  canon (xs ++ ys)

/-- Union of two optional `ct` axes: a dataset without the `ct` dimension
contributes nothing to it. -/
def ctUnion : Option (List String) → Option (List String) → Option (List String)
  | none, b => b
  | some a, none => some a
  | some a, some b => some (listUnion a b)

/-- Whether a `ct` label is admissible: a dataset without a `ct` dimension
does not constrain it, a dataset with one requires membership. -/
def ctOk : Option (List String) → String → Bool
  | none, _ => true
  | some cts, c => decide (c ∈ cts)

/-- The `ct` labels to enumerate when scanning a dataset for NaNs: a
dataset without a `ct` dimension has a single degenerate slot. -/
def ctList : Option (List String) → List String
  | none => [""]
  | some cts => cts

/-- An in-memory labelled dataset as produced by loading one data file:
variables over the `time` axis and an optional `ct` (cloud-type) axis,
before any `idname` axis exists. -/
structure RawData where
  timeAxis : List Nat
  ctAxis : Option (List String)
  varNames : List String
  data : String → Nat → String → Option Int

/-- An in-memory labelled dataset with an `idname` axis, as handled by the
collectors.  `expname` is the string variable along `idname` carrying the
raw experiment name. -/
structure Dataset where
  timeAxis : List Nat
  idnameAxis : List String
  ctAxis : Option (List String)
  varNames : List String
  expname : String → Option String
  data : String → Nat → String → String → Option Int

/-- Whether a cell of a raw dataset lies inside its coordinate grid. -/
def RawData.definedAt (r : RawData) (v : String) (t : Nat) (c : String) : Bool :=
  decide (v ∈ r.varNames) && decide (t ∈ r.timeAxis) && ctOk r.ctAxis c

/-- The value of a raw dataset at a cell, `none` outside its grid. -/
def RawData.lookup (r : RawData) (v : String) (t : Nat) (c : String) : Option Int :=
  if r.definedAt v t c then r.data v t c else none

/-- Whether a cell of a dataset lies inside its coordinate grid. -/
def Dataset.definedAt (d : Dataset) (v : String) (t : Nat) (i c : String) : Bool :=
  decide (v ∈ d.varNames) && decide (t ∈ d.timeAxis) &&
    decide (i ∈ d.idnameAxis) && ctOk d.ctAxis c

/-- The value of a dataset at a cell, `none` outside its grid. -/
def Dataset.lookup (d : Dataset) (v : String) (t : Nat) (i c : String) : Option Int :=
  if d.definedAt v t i c then d.data v t i c else none

/-- `d.expand_dims(idname)` followed by setting the `idname` coordinate and
the `expname` variable: the per-file dataset becomes a dataset with a
length-one `idname` axis. -/
def RawData.tag (r : RawData) (id ex : String) : Dataset where
  timeAxis := r.timeAxis
  idnameAxis := [id]
  ctAxis := r.ctAxis
  varNames := r.varNames
  expname := fun i => if i = id then some ex else none
  data := fun v t i c => if i = id then r.data v t c else none

/-- Union join of two raw datasets (`xr.merge` on the daily observation
files): union of axes and variables, earlier input wins on common cells. -/
def RawData.merge2 (a b : RawData) : RawData where
  timeAxis := listUnion a.timeAxis b.timeAxis
  ctAxis := ctUnion a.ctAxis b.ctAxis
  varNames := listUnion a.varNames b.varNames
  data := fun v t c =>
    if a.definedAt v t c then a.data v t c
    else if b.definedAt v t c then b.data v t c else none

/-- `xr.merge` of a list of raw datasets. -/
def mergeRaws : List RawData → RawData
  | [] => ⟨[], none, [], fun _ _ _ => none⟩
  | r :: rs => rs.foldl RawData.merge2 r

/-- The empty dataset (`xr.merge` of an empty list). -/
def emptyDataset : Dataset :=
  ⟨[], [], none, [], fun _ => none, fun _ _ _ _ => none⟩

/-- All `ct` axes present among a list of datasets, union-joined; `none`
when no member has a `ct` dimension. -/
def ctAll (ds : List Dataset) : Option (List String) :=
  if ds.filterMap Dataset.ctAxis = [] then none
  else some (canon (ds.filterMap Dataset.ctAxis).flatten)

/-- `xr.merge` of a list of datasets: a single dataset is returned
unchanged; two or more are outer-joined in one step — every coordinate axis
becomes the sorted union of the member axes, and each cell takes the value
of the first member whose own grid contains it (a member without a `ct`
dimension broadcasts over `ct`), missing everywhere else. -/
def mergeDsets : List Dataset → Dataset
  | [] => emptyDataset
  | [d] => d
  | d :: ds =>
      { timeAxis := canon (((d :: ds).map Dataset.timeAxis).flatten)
        idnameAxis := canon (((d :: ds).map Dataset.idnameAxis).flatten)
        ctAxis := ctAll (d :: ds)
        varNames := canon (((d :: ds).map Dataset.varNames).flatten)
        expname := fun i =>
          match (d :: ds).find? (fun x => (x.expname i).isSome) with
          | some x => x.expname i
          | none => none
        data := fun v t i c =>
          match (d :: ds).find? (fun x => x.definedAt v t i c) with
          | some x => x.data v t i c
          | none => none }

/-- `xr.concat(dim = time)` of two datasets: the time axes are
concatenated (duplicates retained), the other axes union-joined. -/
def Dataset.concat2 (a b : Dataset) : Dataset where
  timeAxis := a.timeAxis ++ b.timeAxis
  idnameAxis := listUnion a.idnameAxis b.idnameAxis
  ctAxis := ctUnion a.ctAxis b.ctAxis
  varNames := listUnion a.varNames b.varNames
  expname := fun i => optOr (a.expname i) (b.expname i)
  data := fun v t i c =>
    if a.definedAt v t i c then a.data v t i c
    else if b.definedAt v t i c then b.data v t i c else none

/-- `xr.concat(dim = time)` of a non-empty list of datasets. -/
def concatTime : List Dataset → Dataset
  | [] => emptyDataset
  | d :: ds => ds.foldl Dataset.concat2 d

/-- `sel(time = date_slice)`: restrict the time axis to an inclusive
label range. -/
def Dataset.selTimeSlice (d : Dataset) (sl : Nat × Nat) : Dataset :=
  { d with timeAxis := d.timeAxis.filter (fun t => decide (sl.1 ≤ t ∧ t ≤ sl.2)) }

/-- `sel(time = list)`: reindex to exactly the requested timestamps; a
requested label absent from the axis raises a KeyError. -/
def Dataset.selTimeList (d : Dataset) (ts : List Nat) : Except XErr Dataset :=
  if ∀ t ∈ ts, t ∈ d.timeAxis then .ok { d with timeAxis := ts }
  else .error .keyError

/-- `sel(ct = c)`: select one cloud-type label; raises if the dataset has
no `ct` coordinate or the label is absent. -/
def Dataset.selCt (d : Dataset) (c : String) : Except XErr Dataset :=
  match d.ctAxis with
  | none => .error .keyError
  | some cts =>
      if c ∈ cts then .ok { d with ctAxis := some [c] } else .error .keyError

/-- `sel(idname = ids)`: reindex the `idname` axis to the given labels. -/
def Dataset.selIdnames (d : Dataset) (ids : List String) : Except XErr Dataset :=
  if ∀ i ∈ ids, i ∈ d.idnameAxis then .ok { d with idnameAxis := ids }
  else .error .keyError

/-- `dropna(idname)`: keep only the `idname` labels whose values contain no
missing entry anywhere on the remaining axes. -/
def Dataset.dropnaIdname (d : Dataset) : Dataset :=
  { d with idnameAxis := d.idnameAxis.filter (fun i =>
      d.varNames.all fun v => d.timeAxis.all fun t =>
        (ctList d.ctAxis).all fun c => (d.lookup v t i c).isSome) }

/-- The external collaborators of the collector module: the experiment-set
resolver (`gather_simset`, `set_dateslices`), the name normalizer
(`expname2conf_str`) and the file system reached through
`xr.open_dataset`. -/
structure Env where
  gather_simset : Int → List String
  set_dateslices : Int → Nat × Nat
  expname2conf_str : String → String
  fs : FKey → Option RawData

/-- Length of one calendar day on the minute clock. -/
def minutesPerDay : Nat := 1440

/-- The meteosat observation file name for a timestamp:
`meteosat-nawdex-<YYYYMMDD>`, the day stamp being the calendar day of the
timestamp. -/
def obsname (t : Nat) : String :=
  "meteosat-nawdex-" ++ toString (t / minutesPerDay)

/-- The day-stepping loop of `get_obs_cre4time_list`: starting at the
minimum timestamp (time of day preserved) and adding one day while the
stepped timestamp does not exceed the maximum. -/
def obsDays (t1 t2 : Nat) : List Nat :=
  (List.range ((t2 - t1) / minutesPerDay + 1)).map (fun k => t1 + minutesPerDay * k)

/-- Minimum of a non-empty list of timestamps (0 on the empty list, which
the callers never reach). -/
def listMin : List Nat → Nat
  | [] => 0
  | x :: xs => xs.foldl Nat.min x

/-- Maximum of a non-empty list of timestamps. -/
def listMax : List Nat → Nat
  | [] => 0
  | x :: xs => xs.foldl Nat.max x

/-- The file keys the observation collector opens for a request. -/
def obsKeys (time : List Nat) (file_part file_format : String) : List FKey :=
  (obsDays (listMin time) (listMax time)).map
    (fun t => ⟨file_format, file_part, obsname t⟩)

/-- Open a list of raw files in order; the first missing file raises and
ends the loop.  Also returns the keys attempted, in order. -/
def openRaws (env : Env) : List FKey → Except XErr (List RawData) × List FKey
  | [] => (.ok [], [])
  | k :: rest =>
      match env.fs k with
      | none => (.error (.fileNotFound k), [k])
      | some r =>
          let next := openRaws env rest
          (next.1.map (fun l => r :: l), k :: next.2)

/-- Open and tag the per-experiment files of `collect_sim_ave_cre4set` in
order; the first missing file raises and ends the loop. -/
def openTagged (env : Env) (file_format file_part : String) :
    List String → Except XErr (List Dataset) × List FKey
  | [] => (.ok [], [])
  | e :: rest =>
      let k : FKey := ⟨file_format, file_part, e⟩
      match env.fs k with
      | none => (.error (.fileNotFound k), [k])
      | some r =>
          let d := r.tag (env.expname2conf_str e) e
          let next := openTagged env file_format file_part rest
          (next.1.map (fun l => d :: l), k :: next.2)

/-- `collect_sim_ave_cre4set`: validate the set number against the
inclusive allowed range, open one file per experiment of the set, tag each
with its normalized identity, union-merge over `idname` and restrict to the
date slice of the set. -/
def collect_sim_ave_cre4set (env : Env) (set_number : Int)
    (file_part file_format : String) (allowed_set_range : Int × Int) :
    Except XErr Dataset × List FKey :=
  if set_number < allowed_set_range.1 ∨ set_number > allowed_set_range.2 then
    (.error (.valueError "set_number is outside allowed range"), [])
  else
    let explist := env.gather_simset set_number
    let date_slice := env.set_dateslices set_number
    let opened := openTagged env file_format file_part explist
    match opened.1 with
    | .error e => (.error e, opened.2)
    | .ok dlist => (.ok ((mergeDsets dlist).selTimeSlice date_slice), opened.2)

/-- The daily observation data merged over the day range, before the final
reindexing of `get_obs_cre4time_list` (the value of `xr.merge(obsdat)`). -/
def obsMerged (env : Env) (time : List Nat) (file_part file_format : String) :
    Except XErr RawData :=
  match (openRaws env (obsKeys time file_part file_format)).1 with
  | .error e => .error e
  | .ok raws => .ok (mergeRaws raws)

/-- `get_obs_cre4time_list`: load one observation file per day step from the
minimum to the maximum requested timestamp, union-merge them, tag with the
fixed `msevi<file_part>` identity, and reindex to exactly the requested
timestamps.  An empty request raises inside the numpy reduction. -/
def get_obs_cre4time_list (env : Env) (time : List Nat)
    (file_part file_format : String) : Except XErr Dataset × List FKey :=
  match time with
  | [] => (.error (.valueError "zero-size array to reduction operation"), [])
  | _ :: _ =>
      let keys := obsKeys time file_part file_format
      let opened := openRaws env keys
      match opened.1 with
      | .error e => (.error e, opened.2)
      | .ok raws =>
          let ex := "msevi" ++ file_part
          (((mergeRaws raws).tag ex ex).selTimeList time, opened.2)

/-- The numeric branch of `get_stat4set`: collect the simulated data, then
attempt each of the two observation variants against the simulated time
axis, silently dropping a variant whose load raises, and union-merge
whatever succeeded. -/
def get_stat4set_num (env : Env) (set_number : Int)
    (allowed_set_range : Int × Int) (file_format : String) :
    Except XErr Dataset × List FKey :=
  let sim := collect_sim_ave_cre4set env set_number "" file_format allowed_set_range
  match sim.1 with
  | .error e => (.error e, sim.2)
  | .ok dsim =>
      let o1 := get_obs_cre4time_list env dsim.timeAxis "-scaled" file_format
      let o2 := get_obs_cre4time_list env dsim.timeAxis "-not_scaled" file_format
      let dlist := [dsim]
        ++ (match o1.1 with | .ok d => [d] | .error _ => [])
        ++ (match o2.1 with | .ok d => [d] | .error _ => [])
      (.ok (mergeDsets dlist), sim.2 ++ o1.2 ++ o2.2)

/-- The per-set loading loop of `get_stat4all`: each set is read through
the numeric `get_stat4set` with its default allowed range `[1, 4]` (the
method argument is not forwarded). -/
def stat4allLoad (env : Env) (file_format : String) :
    List Int → Except XErr (List Dataset) × List FKey
  | [] => (.ok [], [])
  | iset :: rest =>
      let head := get_stat4set_num env iset (1, 4) file_format
      match head.1 with
      | .error e => (.error e, head.2)
      | .ok d =>
          let next := stat4allLoad env file_format rest
          (next.1.map (fun l => d :: l), head.2 ++ next.2)

/-- `get_stat4all`: load every set in the range, concatenate along `time`;
in `strict` mode then keep only the `idname` values with no missing
`clear_ocean` entries; any other method leaves the result variable
unassigned and the final return raises an UnboundLocalError. -/
def get_stat4all (env : Env) (set_range : List Int)
    (file_format method : String) : Except XErr Dataset × List FKey :=
  let loaded := stat4allLoad env file_format set_range
  match loaded.1 with
  | .error e => (.error e, loaded.2)
  | .ok dlist =>
      if method = "all" then
        match dlist with
        | [] => (.error (.valueError "must supply at least one object to concatenate"), loaded.2)
        | d :: ds => (.ok (concatTime (d :: ds)), loaded.2)
      else if method = "strict" then
        match dlist with
        | [] => (.error (.valueError "must supply at least one object to concatenate"), loaded.2)
        | d :: ds =>
            let dall := concatTime (d :: ds)
            match dall.selCt "clear_ocean" with
            | .error e => (.error e, loaded.2)
            | .ok dsel =>
                let dclear := dsel.dropnaIdname
                match dall.selIdnames dclear.idnameAxis with
                | .error e => (.error e, loaded.2)
                | .ok dset => (.ok dset, loaded.2)
      else (.error .unboundLocal, loaded.2)

/-- The set-number argument of `get_stat4set`: a numeric set or the
sentinel string value `all`. -/
inductive SetNum where
  | num (n : Int)
  | all
deriving DecidableEq

/-- `list(range(lo, hi + 1))` on integers. -/
def intRange (lo hi : Int) : List Int :=
  (List.range (hi + 1 - lo).toNat).map (fun k => lo + (k : Int))

/-- `get_stat4set`: the sentinel `all` delegates to `get_stat4all` over the
full allowed range and returns immediately; a numeric set goes through the
numeric branch (which ignores the method argument). -/
def get_stat4set (env : Env) (set_number : SetNum)
    (allowed_set_range : Int × Int) (file_format method : String) :
    Except XErr Dataset × List FKey :=
  match set_number with
  | .all =>
      get_stat4all env (intRange allowed_set_range.1 allowed_set_range.2)
        file_format method
  | .num n => get_stat4set_num env n allowed_set_range file_format

/-- The corner coordinates of a cylindric-projection Basemap. -/
structure BasemapParams where
  llcrnrlat : Rat
  urcrnrlat : Rat
  llcrnrlon : Rat
  urcrnrlon : Rat
deriving DecidableEq

/-- A drawn map: the projection corners and the colors used for the
coastlines and country borders. -/
structure MapState where
  params : BasemapParams
  coastColor : String
  countryColor : String
deriving DecidableEq

/-- `nawdex_map` of src/nawdex_analysis/plot/nawdex_map.py: construct the
Basemap for one of the three known regions and draw coastlines and country
borders on it; an unrecognized region name leaves the map variable unbound
and the coastline call raises an UnboundLocalError. -/
def nawdex_map (region color : String) : Except XErr MapState :=
  let m : Option BasemapParams :=
    if region = "max-extent" then some ⟨23, 81, -79, 41⟩
    else if region = "zenith75" then some ⟨23, 133 / 2, -65, 40⟩
    else if region = "atlantic" then some ⟨23, 133 / 2, -65, 10⟩
    else none
  match m with
  | none => .error .unboundLocal
  | some p => .ok ⟨p, color, color⟩

/-! Concrete environments used by the witness theorems. -/

/-- A simulation statistics file: one timestamp, a `ct` axis holding
`clear_ocean`, and one variable with no missing value. -/
def rawA : RawData where
  timeAxis := [0]
  ctAxis := some ["clear_ocean"]
  varNames := ["scre"]
  data := fun _ _ _ => some 5

/-- An environment with a single experiment `expA` whose simulation file
exists, while every observation file is missing. -/
def envW1 : Env where
  gather_simset := fun _ => ["expA"]
  set_dateslices := fun _ => (0, 0)
  expname2conf_str := fun e => e
  fs := fun k => if k.slot = "expA" then some rawA else none

/-- The simulated dataset collected from `envW1` for any in-range set. -/
def dsimW : Dataset := (rawA.tag "expA" "expA").selTimeSlice (0, 0)

/-- An observation file whose time axis holds the two example timestamps
(days 23 and 24 at 00 UTC on the minute clock). -/
def rawObs : RawData where
  timeAxis := [33120, 34560]
  ctAxis := none
  varNames := ["ocre"]
  data := fun _ _ _ => some 7

/-- An environment in which every file open succeeds and yields the same
observation data. -/
def envAll : Env where
  gather_simset := fun _ => ["expA"]
  set_dateslices := fun _ => (33120, 34560)
  expname2conf_str := fun e => e
  fs := fun _ => some rawObs

/-- A daily observation file holding only the timestamp 0, so that a
request for a later timestamp is absent from the merged data. -/
def rawDay0 : RawData where
  timeAxis := [0]
  ctAxis := none
  varNames := ["ocre"]
  data := fun _ _ _ => some 3

/-- An environment whose observation files all carry only timestamp 0. -/
def envC2 : Env where
  gather_simset := fun _ => ["expA"]
  set_dateslices := fun _ => (0, 0)
  expname2conf_str := fun e => e
  fs := fun _ => some rawDay0

/-- A simulation file for the order-independence witness. -/
def rawA2 : RawData where
  timeAxis := [0, 1]
  ctAxis := some ["clear_ocean"]
  varNames := ["scre"]
  data := fun _ t _ => some (t : Int)

/-- A second simulation file with a different schema: another time axis, no
`ct` dimension and an extra variable. -/
def rawB2 : RawData where
  timeAxis := [0, 1, 2]
  ctAxis := none
  varNames := ["scre", "lcre"]
  data := fun _ t _ => some ((t : Int) + 10)

/-- The per-experiment file table of the order-independence witness. -/
def fileW : String → RawData :=
  fun e => if e = "expA" then rawA2 else rawB2

/-- An environment with two experiments `expA`, `expB` whose simulation
files both exist, with differing schemas. -/
def envW8 : Env where
  gather_simset := fun _ => ["expA", "expB"]
  set_dateslices := fun _ => (0, 1)
  expname2conf_str := fun e => e
  fs := fun k =>
    if k.slot = "expA" then some rawA2
    else if k.slot = "expB" then some rawB2 else none

/-- The time axis of a successful dataset result, `none` on failure. -/
def okTimes : Except XErr Dataset → Option (List Nat)
  | .ok d => some d.timeAxis
  | .error _ => none

/-! Supporting lemmas. -/

@[simp]
theorem RawData.tag_timeAxis (r : RawData) (id ex : String) :
    (r.tag id ex).timeAxis = r.timeAxis := rfl

@[simp]
theorem RawData.tag_ctAxis (r : RawData) (id ex : String) :
    (r.tag id ex).ctAxis = r.ctAxis := rfl

@[simp]
theorem RawData.tag_varNames (r : RawData) (id ex : String) :
    (r.tag id ex).varNames = r.varNames := rfl

@[simp]
theorem RawData.tag_idnameAxis (r : RawData) (id ex : String) :
    (r.tag id ex).idnameAxis = [id] := rfl

@[simp]
theorem Dataset.selTimeSlice_timeAxis (d : Dataset) (sl : Nat × Nat) :
    (d.selTimeSlice sl).timeAxis
      = d.timeAxis.filter (fun t => decide (sl.1 ≤ t ∧ t ≤ sl.2)) := rfl

@[simp]
theorem Dataset.selTimeSlice_idnameAxis (d : Dataset) (sl : Nat × Nat) :
    (d.selTimeSlice sl).idnameAxis = d.idnameAxis := rfl

@[simp]
theorem Dataset.selTimeSlice_ctAxis (d : Dataset) (sl : Nat × Nat) :
    (d.selTimeSlice sl).ctAxis = d.ctAxis := rfl

@[simp]
theorem Dataset.selTimeSlice_varNames (d : Dataset) (sl : Nat × Nat) :
    (d.selTimeSlice sl).varNames = d.varNames := rfl

@[simp]
theorem Dataset.selTimeSlice_expname (d : Dataset) (sl : Nat × Nat) :
    (d.selTimeSlice sl).expname = d.expname := rfl

@[simp]
theorem Dataset.concat2_idnameAxis (a b : Dataset) :
    (a.concat2 b).idnameAxis = listUnion a.idnameAxis b.idnameAxis := rfl

@[simp]
theorem Dataset.dropnaIdname_idnameAxis (d : Dataset) :
    (d.dropnaIdname).idnameAxis = d.idnameAxis.filter (fun i =>
      d.varNames.all fun v => d.timeAxis.all fun t =>
        (ctList d.ctAxis).all fun c => (d.lookup v t i c).isSome) := rfl

theorem mem_insertSorted {α : Type} [LinearOrder α] (a x : α) :
    ∀ l : List α, x ∈ insertSorted a l ↔ x = a ∨ x ∈ l := by
  intro l
  induction l with
  | nil => simp [insertSorted]
  | cons b bs ih =>
      by_cases h : a ≤ b
      · simp [insertSorted, h]
      · simp [insertSorted, h, ih]
        tauto

theorem insertSorted_perm {α : Type} [LinearOrder α] (a : α) :
    ∀ l : List α, List.Perm (insertSorted a l) (a :: l) := by
  intro l
  induction l with
  | nil => simp [insertSorted]
  | cons b bs ih =>
      by_cases h : a ≤ b
      · simp [insertSorted, h]
      · have hstep : insertSorted a (b :: bs) = b :: insertSorted a bs := by
          simp [insertSorted, h]
        rw [hstep]
        exact (List.Perm.cons b ih).trans (List.Perm.swap a b bs)

theorem sorted_insertSorted {α : Type} [LinearOrder α] (a : α) :
    ∀ l : List α, l.Sorted (· ≤ ·) → (insertSorted a l).Sorted (· ≤ ·) := by
  intro l
  induction l with
  | nil => intro _; simp [insertSorted]
  | cons b bs ih =>
      intro hs
      rw [List.sorted_cons] at hs
      by_cases h : a ≤ b
      · have hres : (a :: b :: bs).Sorted (· ≤ ·) := by
          rw [List.sorted_cons]
          constructor
          · intro x hx
            rcases List.mem_cons.mp hx with hxb | hxbs
            · exact hxb ▸ h
            · exact le_trans h (hs.1 x hxbs)
          · exact List.sorted_cons.mpr hs
        simpa [insertSorted, h] using hres
      · have hba : b ≤ a := le_of_not_le h
        have hres : (b :: insertSorted a bs).Sorted (· ≤ ·) := by
          rw [List.sorted_cons]
          refine ⟨?_, ih hs.2⟩
          intro x hx
          rcases (mem_insertSorted a x bs).mp hx with hxa | hxbs
          · exact hxa ▸ hba
          · exact hs.1 x hxbs
        simpa [insertSorted, h] using hres

theorem insertionSort_perm {α : Type} [LinearOrder α] :
    ∀ l : List α, List.Perm (l.foldr insertSorted []) l := by
  intro l
  induction l with
  | nil => simp
  | cons a l ih =>
      simp only [List.foldr_cons]
      exact (insertSorted_perm a _).trans (List.Perm.cons a ih)

theorem sorted_insertionSort {α : Type} [LinearOrder α] :
    ∀ l : List α, (l.foldr insertSorted []).Sorted (· ≤ ·) := by
  intro l
  induction l with
  | nil => simp
  | cons a l ih =>
      simp only [List.foldr_cons]
      exact sorted_insertSorted a _ ih

theorem mem_canon {α : Type} [DecidableEq α] [LinearOrder α] (x : α)
    (l : List α) : x ∈ canon l ↔ x ∈ l := by
  unfold canon
  rw [(insertionSort_perm l.dedup).mem_iff, List.mem_dedup]

theorem sorted_canon {α : Type} [DecidableEq α] [LinearOrder α]
    (l : List α) : (canon l).Sorted (· ≤ ·) :=
  sorted_insertionSort l.dedup

theorem nodup_canon {α : Type} [DecidableEq α] [LinearOrder α]
    (l : List α) : (canon l).Nodup :=
  ((insertionSort_perm l.dedup).symm).nodup (List.nodup_dedup l)

theorem canon_eq_of_mem {α : Type} [DecidableEq α] [LinearOrder α]
    (l1 l2 : List α) (h : ∀ x, x ∈ l1 ↔ x ∈ l2) : canon l1 = canon l2 := by
  have hperm : List.Perm (canon l1) (canon l2) :=
    List.perm_of_nodup_nodup_toFinset_eq (nodup_canon l1) (nodup_canon l2)
      (by
        ext x
        simp only [List.mem_toFinset, mem_canon]
        exact h x)
  exact List.eq_of_perm_of_sorted hperm (sorted_canon l1) (sorted_canon l2)

theorem mem_listUnion {α : Type} [DecidableEq α] [LinearOrder α] (x : α)
    (xs ys : List α) : x ∈ listUnion xs ys ↔ x ∈ xs ∨ x ∈ ys := by
  unfold listUnion
  rw [mem_canon, List.mem_append]

/-- When every file of the loop opens, the attempted keys are exactly the
requested keys. -/
theorem openRaws_ok_snd (env : Env) :
    ∀ ks l, (openRaws env ks).1 = .ok l → (openRaws env ks).2 = ks := by
  intro ks
  induction ks with
  | nil => intro l _; rfl
  | cons k rest ih =>
      intro l h
      unfold openRaws at h ⊢
      cases hk : env.fs k with
      | none => rw [hk] at h; simp at h
      | some r =>
          rw [hk] at h
          simp only [] at h ⊢
          cases hrest : (openRaws env rest).1 with
          | error e => rw [hrest] at h; simp [Except.map] at h
          | ok l0 => simp [hk, ih l0 hrest]

/-! Claim theorems. -/

/-- Claim C4: for every set number strictly below the lower bound or
strictly above the upper bound of the inclusive allowed range,
`collect_sim_ave_cre4set` fails with the range ValueError before
attempting any file access (the list of attempted file keys is empty). -/
theorem collect_sim_out_of_range_no_file_access (env : Env) (n : Int)
    (fp ff : String) (lo hi : Int) (h : n < lo ∨ n > hi) :
    collect_sim_ave_cre4set env n fp ff (lo, hi) =
      (.error (.valueError "set_number is outside allowed range"), []) := by
  unfold collect_sim_ave_cre4set
  rw [if_pos h]

/-- Witness for C4: set number 9 against the allowed range `[1, 4]`. -/
theorem collect_sim_out_of_range_no_file_access_witness :
    collect_sim_ave_cre4set envW1 9 "" "default" (1, 4) =
      (.error (.valueError "set_number is outside allowed range"), []) :=
  collect_sim_out_of_range_no_file_access envW1 9 "" "default" 1 4
    (Or.inr (by decide))

/-- Claim C6: called with the sentinel set number `all`, `get_stat4set`
delegates to `get_stat4all` over the full inclusive allowed range with the
given file format and method and returns that result unchanged, for every
range — including invalid bounds, which the dispatch does not validate;
validation happens only inside each per-set sub-call (with its own default
allowed range), as the second and third conjuncts show for the out-of-range
bound 0: the delegation itself raises no range error, the first sub-call
does, before any file access. -/
theorem get_stat4set_all_delegates (env : Env) (asr : Int × Int)
    (ff m : String) :
    get_stat4set env .all asr ff m =
        get_stat4all env (intRange asr.1 asr.2) ff m ∧
      (get_stat4set env .all (0, 0) ff m).1 =
        .error (.valueError "set_number is outside allowed range") ∧
      (get_stat4set env .all (0, 0) ff m).2 = [] :=
  ⟨rfl, rfl, rfl⟩

/-- Claim C10: for every region argument other than the three known region
names, `nawdex_map` raises an UnboundLocalError when it tries to draw the
coastlines, because no map was constructed; there is no default region. -/
theorem nawdex_map_unknown_region_unbound (region color : String)
    (h1 : region ≠ "max-extent") (h2 : region ≠ "zenith75")
    (h3 : region ≠ "atlantic") :
    nawdex_map region color = .error .unboundLocal := by
  simp [nawdex_map, h1, h2, h3]

/-- Witness for C10: the unrecognized region name `arctic`. -/
theorem nawdex_map_unknown_region_unbound_witness :
    nawdex_map "arctic" "black" = .error .unboundLocal :=
  nawdex_map_unknown_region_unbound "arctic" "black"
    (by decide) (by decide) (by decide)

/-- Claim C9: for every method argument other than `all` or `strict`,
`get_stat4all` never returns a dataset; when the per-set loading loop
succeeds, neither concatenation branch runs and the final return raises an
UnboundLocalError. -/
theorem get_stat4all_unknown_method_never_ok (env : Env) (sr : List Int)
    (ff m : String) (h1 : m ≠ "all") (h2 : m ≠ "strict") :
    exceptIsOk (get_stat4all env sr ff m).1 = false ∧
      (exceptIsOk (stat4allLoad env ff sr).1 = true →
        (get_stat4all env sr ff m).1 = .error .unboundLocal) := by
  cases hl : (stat4allLoad env ff sr).1 with
  | error e => simp [get_stat4all, hl, exceptIsOk]
  | ok dlist => simp [get_stat4all, hl, h1, h2, exceptIsOk]

/-- Witness for C9: the unknown method `bogus` on a one-set range whose
load succeeds. -/
theorem get_stat4all_unknown_method_never_ok_witness :
    exceptIsOk (get_stat4all envW1 [1] "default" "bogus").1 = false ∧
      (get_stat4all envW1 [1] "default" "bogus").1 = .error .unboundLocal := by
  have h := get_stat4all_unknown_method_never_ok envW1 [1] "default" "bogus"
    (by decide) (by decide)
  exact ⟨h.1, h.2 (by rfl)⟩

/-- Claim C1: for a set number in the allowed range, when the simulated
collection succeeds and both observation-variant loads fail with any
exception, `get_stat4set` still succeeds and returns exactly the simulated
dataset — only its variables and coordinates, nothing else (so the result
is non-empty whenever the simulated data is); each failing variant is
caught independently and omitted silently. -/
theorem get_stat4set_both_obs_fail_returns_sim (env : Env) (n lo hi : Int)
    (ff m : String) (dsim : Dataset) (_hlo : lo ≤ n) (_hhi : n ≤ hi)
    (hsim : (collect_sim_ave_cre4set env n "" ff (lo, hi)).1 = .ok dsim)
    (h1 : exceptIsOk (get_obs_cre4time_list env dsim.timeAxis "-scaled" ff).1
      = false)
    (h2 : exceptIsOk
      (get_obs_cre4time_list env dsim.timeAxis "-not_scaled" ff).1 = false) :
    (get_stat4set env (.num n) (lo, hi) ff m).1 = .ok dsim := by
  cases ho1 : (get_obs_cre4time_list env dsim.timeAxis "-scaled" ff).1 with
  | ok d => rw [ho1] at h1; simp [exceptIsOk] at h1
  | error e1 =>
    cases ho2 : (get_obs_cre4time_list env dsim.timeAxis "-not_scaled" ff).1 with
    | ok d => rw [ho2] at h2; simp [exceptIsOk] at h2
    | error e2 =>
      simp [get_stat4set, get_stat4set_num, hsim, ho1, ho2, mergeDsets]

/-- Witness for C1: set 1 of `envW1`, where the simulation file exists and
both observation files are missing. -/
theorem get_stat4set_both_obs_fail_returns_sim_witness :
    (get_stat4set envW1 (SetNum.num 1) (1, 4) "default" "all").1 =
      .ok dsimW :=
  get_stat4set_both_obs_fail_returns_sim envW1 1 1 4 "default" "all" dsimW
    (by decide) (by decide) (by rfl) (by rfl) (by rfl)

/-- Claim C2: for every non-empty requested timestamp collection (given
the merged daily data loaded successfully), `get_obs_cre4time_list` either
returns a dataset whose time axis is exactly the requested timestamps — no
extra time points from the day-range load — or fails; and it fails with a
key/selection error precisely when some requested timestamp is absent from
the merged daily data. -/
theorem get_obs_time_axis_exact (env : Env) (time : List Nat)
    (fp ff : String) (m : RawData) (h : time ≠ [])
    (hm : obsMerged env time fp ff = .ok m) :
    (okTimes (get_obs_cre4time_list env time fp ff).1 = some time ∨
      (get_obs_cre4time_list env time fp ff).1 = .error .keyError) ∧
    ((get_obs_cre4time_list env time fp ff).1 = .error .keyError ↔
      (time.all fun t => decide (t ∈ m.timeAxis)) = false) := by
  match time, h with
  | t0 :: ts, _ =>
    unfold obsMerged at hm
    cases hop : (openRaws env (obsKeys (t0 :: ts) fp ff)).1 with
    | error e => rw [hop] at hm; simp at hm
    | ok raws =>
      rw [hop] at hm
      simp only [Except.ok.injEq] at hm
      subst hm
      simp only [get_obs_cre4time_list, hop]
      unfold Dataset.selTimeList
      by_cases hc : ∀ t ∈ t0 :: ts, t ∈ (mergeRaws raws).timeAxis
      · rw [if_pos (by simpa using hc)]
        refine ⟨Or.inl rfl, ?_⟩
        constructor
        · intro hfalse; exact absurd hfalse (by simp)
        · intro hall
          have htrue :
              ((t0 :: ts).all fun t => decide (t ∈ (mergeRaws raws).timeAxis))
                = true :=
            List.all_eq_true.mpr fun t ht => decide_eq_true (hc t ht)
          rw [htrue] at hall
          cases hall
      · rw [if_neg (by simpa using hc)]
        have hall :
            ((t0 :: ts).all fun t => decide (t ∈ (mergeRaws raws).timeAxis))
              = false := by
          rcases Bool.eq_false_or_eq_true
              ((t0 :: ts).all fun t => decide (t ∈ (mergeRaws raws).timeAxis))
            with hb | hb
          · exact absurd
              (fun t ht => of_decide_eq_true (List.all_eq_true.mp hb t ht)) hc
          · exact hb
        exact ⟨Or.inr rfl, ⟨fun _ => hall, fun _ => rfl⟩⟩

/-- Witness for C2: requesting timestamps 0 and 1440 against daily files
that only carry timestamp 0 — the second requested timestamp is absent from
the merged data, and the collector fails with a key error. -/
theorem get_obs_time_axis_exact_witness :
    (okTimes (get_obs_cre4time_list envC2 [0, 1440] "-scaled" "default").1
        = some [0, 1440] ∨
      (get_obs_cre4time_list envC2 [0, 1440] "-scaled" "default").1
        = .error .keyError) ∧
    ((get_obs_cre4time_list envC2 [0, 1440] "-scaled" "default").1
        = .error .keyError ↔
      ([0, 1440].all fun t =>
        decide (t ∈ (RawData.merge2 rawDay0 rawDay0).timeAxis)) = false) :=
  get_obs_time_axis_exact envC2 [0, 1440] "-scaled" "default"
    (RawData.merge2 rawDay0 rawDay0) (by decide) (by rfl)

/-- Counterexample for C3: the claim promises one file per calendar day of
the inclusive calendar-day range spanned by the request, but the loop steps
whole days from the minimum timestamp itself.  Requesting timestamps 720
(day 0 at 12:00) and 1800 (day 1 at 06:00) spans two calendar days, yet
exactly one file is loaded — day 1 at 12:00 already exceeds the maximum. -/
theorem obs_day_loop_calendar_counterexample :
    (get_obs_cre4time_list envAll [720, 1800] "-scaled" "default").2 =
        [⟨"default", "-scaled", "meteosat-nawdex-0"⟩] ∧
      (get_obs_cre4time_list envAll [720, 1800] "-scaled" "default").2.length
        = 1 ∧
      1800 / minutesPerDay - 720 / minutesPerDay + 1 = 2 := by
  decide

/-- Claim C3 (amended): for every non-empty request whose loads succeed,
the observation collector loads exactly one file per whole-day step from
the minimum requested timestamp while the stepped timestamp does not exceed
the maximum — that is, `(max - min) / day + 1` files, each named
`meteosat-nawdex-<YYYYMMDD>` from the stepped timestamp, combined with the
file-part; this equals one file per spanned calendar day only when the
maximum timestamp's time of day is not earlier than the minimum's, as in
the example `[2016-09-23T00, 2016-09-24T00]`, which loads exactly 2 daily
files. -/
theorem obs_day_loop_step_count (env : Env) (time : List Nat)
    (fp ff : String) (h : time ≠ [])
    (hok : exceptIsOk (get_obs_cre4time_list env time fp ff).1 = true) :
    (get_obs_cre4time_list env time fp ff).2 =
        (obsDays (listMin time) (listMax time)).map
          (fun t =>
            ⟨ff, fp, "meteosat-nawdex-" ++ toString (t / minutesPerDay)⟩) ∧
      (get_obs_cre4time_list env time fp ff).2.length =
        (listMax time - listMin time) / minutesPerDay + 1 := by
  match time, h with
  | t0 :: ts, _ =>
    cases hop : (openRaws env (obsKeys (t0 :: ts) fp ff)).1 with
    | error e =>
      simp only [get_obs_cre4time_list, hop, exceptIsOk] at hok
      exact absurd hok (by decide)
    | ok raws =>
      have hsnd := openRaws_ok_snd env (obsKeys (t0 :: ts) fp ff) raws hop
      simp only [get_obs_cre4time_list, hop, hsnd]
      constructor
      · simp [obsKeys, obsname]
      · simp [obsKeys, obsDays]

/-- Witness for C3 (amended): the example request — days 23 and 24 at
00 UTC on the minute clock — loads exactly the two daily files. -/
theorem obs_day_loop_step_count_witness :
    ((get_obs_cre4time_list envAll [33120, 34560] "-scaled" "default").2 =
        (obsDays (listMin [33120, 34560]) (listMax [33120, 34560])).map
          (fun t =>
            ⟨"default", "-scaled",
              "meteosat-nawdex-" ++ toString (t / minutesPerDay)⟩) ∧
      (get_obs_cre4time_list envAll [33120, 34560] "-scaled" "default").2.length
        = (listMax [33120, 34560] - listMin [33120, 34560]) / minutesPerDay
          + 1) ∧
    (get_obs_cre4time_list envAll [33120, 34560] "-scaled" "default").2.length
      = 2 :=
  ⟨obs_day_loop_step_count envAll [33120, 34560] "-scaled" "default"
      (by decide) (by rfl),
    by decide⟩

/-- Whether a dataset has a `ct` coordinate containing the given label. -/
def hasCtB (d : Dataset) (c : String) : Bool :=
  match d.ctAxis with
  | none => false
  | some cts => decide (c ∈ cts)

/-- Selecting a present `ct` label keeps everything but the `ct` axis. -/
theorem selCt_spec (d : Dataset) (cts : List String) (c : String)
    (hc : d.ctAxis = some cts) (hm : c ∈ cts) :
    d.selCt c = .ok { d with ctAxis := some [c] } := by
  simp [Dataset.selCt, hc, hm]

/-- After selecting a present `ct` label, `dropna(idname)` keeps exactly
the identities with no missing value in that `ct` slice. -/
theorem dropna_selCt_idname (d : Dataset) (cts : List String) (c : String)
    (hc : d.ctAxis = some cts) (hm : c ∈ cts) :
    ({ d with ctAxis := some [c] } : Dataset).dropnaIdname.idnameAxis =
      d.idnameAxis.filter (fun i => d.varNames.all fun v =>
        d.timeAxis.all fun t => (d.lookup v t i c).isSome) := by
  have hl : ∀ v t i, ({ d with ctAxis := some [c] } : Dataset).lookup v t i c
      = d.lookup v t i c := by
    intro v t i
    simp [Dataset.lookup, Dataset.definedAt, ctOk, hc, hm]
  simp only [Dataset.dropnaIdname_idnameAxis]
  apply List.filter_congr
  intro i _
  simp only [ctList, List.all_cons, List.all_nil, Bool.and_true, hl]

/-- Claim C5: in `strict` mode `get_stat4all` first concatenates all
per-set results along the time axis; then, if the concatenated dataset has
a `ct` coordinate containing `clear_ocean`, it returns the concatenated
dataset restricted to exactly those `idname` values whose `clear_ocean`
slice has no missing value anywhere — every other axis, variable and value
of the concatenation is kept; if the `ct` coordinate is absent the
selection error propagates instead of the filter being skipped. -/
theorem get_stat4all_strict_filter (env : Env) (sr : List Int) (ff : String)
    (dlist : List Dataset)
    (hload : (stat4allLoad env ff sr).1 = .ok dlist) (hne : dlist ≠ []) :
    ((concatTime dlist).ctAxis = none →
      (get_stat4all env sr ff "strict").1 = .error .keyError) ∧
    (hasCtB (concatTime dlist) "clear_ocean" = true →
      (get_stat4all env sr ff "strict").1 =
        .ok { concatTime dlist with
          idnameAxis := (concatTime dlist).idnameAxis.filter (fun i =>
            (concatTime dlist).varNames.all fun v =>
              (concatTime dlist).timeAxis.all fun t =>
                ((concatTime dlist).lookup v t i "clear_ocean").isSome) }) := by
  match dlist, hne with
  | d0 :: ds, _ =>
    constructor
    · intro hct
      simp [get_stat4all, hload, Dataset.selCt, hct]
    · intro hcb
      cases hcts : (concatTime (d0 :: ds)).ctAxis with
      | none => simp [hasCtB, hcts] at hcb
      | some cts =>
        have hmem : "clear_ocean" ∈ cts := by
          have h2 := hcb
          simp [hasCtB, hcts] at h2
          exact h2
        have hsel := selCt_spec (concatTime (d0 :: ds)) cts "clear_ocean"
          hcts hmem
        have hdrop := dropna_selCt_idname (concatTime (d0 :: ds)) cts
          "clear_ocean" hcts hmem
        simp only [get_stat4all, hload]
        rw [if_neg (by decide), if_pos trivial]
        simp only [hsel, hdrop]
        unfold Dataset.selIdnames
        rw [if_pos (fun i hi => (List.mem_filter.mp hi).1)]

/-- The strict-mode result over `envW1`: the one identity survives since
its `clear_ocean` slice is complete. -/
def dsW : Dataset :=
  { dsimW with idnameAxis := dsimW.idnameAxis.filter (fun i =>
      dsimW.varNames.all fun v => dsimW.timeAxis.all fun t =>
        (dsimW.lookup v t i "clear_ocean").isSome) }

/-- Witness for C5: the one-set range of `envW1`, whose concatenation has
a `ct` coordinate with `clear_ocean`. -/
theorem get_stat4all_strict_filter_witness :
    (get_stat4all envW1 [1] "default" "strict").1 = .ok dsW :=
  (get_stat4all_strict_filter envW1 [1] "default" [dsimW] (by rfl)
    (List.cons_ne_nil _ _)).2 (by rfl)

/-- Claim C7: over the same set list and the same files, the `idname`
values of the `strict` output of `get_stat4all` are a subset of those of
the `all` output. -/
theorem strict_idnames_subset_of_all (env : Env) (sr : List Int)
    (ff : String) (ds da : Dataset)
    (hs : (get_stat4all env sr ff "strict").1 = .ok ds)
    (ha : (get_stat4all env sr ff "all").1 = .ok da) :
    (ds.idnameAxis.all fun i => decide (i ∈ da.idnameAxis)) = true := by
  cases hl : (stat4allLoad env ff sr).1 with
  | error e => simp [get_stat4all, hl] at hs
  | ok dlist =>
    match dlist with
    | [] => simp [get_stat4all, hl] at hs
    | d0 :: dsl =>
      simp only [get_stat4all, hl] at ha hs
      rw [if_pos trivial] at ha
      rw [if_neg (by decide), if_pos trivial] at hs
      simp only [Except.ok.injEq] at ha
      cases hsel : (concatTime (d0 :: dsl)).selCt "clear_ocean" with
      | error e => rw [hsel] at hs; simp at hs
      | ok dsel =>
        rw [hsel] at hs
        simp only [] at hs
        unfold Dataset.selIdnames at hs
        by_cases hc : ∀ i ∈ dsel.dropnaIdname.idnameAxis,
            i ∈ (concatTime (d0 :: dsl)).idnameAxis
        · rw [if_pos hc] at hs
          simp only [Except.ok.injEq] at hs
          subst hs
          subst ha
          exact List.all_eq_true.mpr fun i hi => decide_eq_true (hc i hi)
        · rw [if_neg hc] at hs
          simp at hs

/-- Witness for C7: over `envW1`, the strict output's identities sit
inside the all-mode output's identities. -/
theorem strict_idnames_subset_of_all_witness :
    (dsW.idnameAxis.all fun i => decide (i ∈ dsimW.idnameAxis)) = true :=
  strict_idnames_subset_of_all envW1 [1] "default" dsW dsimW (by rfl) (by rfl)

/-- The environment with the experiment-name list of the resolver
reversed (everything else unchanged). -/
def reverseResolver (env : Env) : Env :=
  { env with gather_simset := fun n => (env.gather_simset n).reverse }

theorem find?_reverse_of_unique {α : Type} (l : List α) (p : α → Bool)
    (hu : ∀ x ∈ l, ∀ y ∈ l, p x = true → p y = true → x = y) :
    l.reverse.find? p = l.find? p := by
  induction l with
  | nil => rfl
  | cons a l ih =>
      rw [List.reverse_cons, List.find?_append]
      rw [ih (fun x hx y hy hpx hpy =>
        hu x (List.mem_cons_of_mem _ hx) y (List.mem_cons_of_mem _ hy) hpx hpy)]
      by_cases hpa : p a = true
      · have hca : List.find? p (a :: l) = some a :=
          List.find?_cons_of_pos _ hpa
        rw [hca]
        cases hfl : l.find? p with
        | none => simp [List.find?, hpa]
        | some y =>
            have hy : y = a := hu y
              (List.mem_cons_of_mem _ (List.mem_of_find?_eq_some hfl))
              a (List.mem_cons_self _ _) (List.find?_some hfl) hpa
            subst hy
            simp [List.find?, hpa]
      · have hca : List.find? p (a :: l) = List.find? p l :=
          List.find?_cons_of_neg _ hpa
        rw [hca]
        have hpaf : p a = false := by
          cases hb : p a
          · rfl
          · exact absurd hb hpa
        have hsing : List.find? p [a] = none := by
          simp [List.find?, hpaf]
        rw [hsing]
        cases l.find? p <;> simp [Option.or]

theorem openTagged_ok (env : Env) (ff fp : String) (file : String → RawData) :
    ∀ es : List String, (∀ e ∈ es, env.fs ⟨ff, fp, e⟩ = some (file e)) →
      openTagged env ff fp es =
        (.ok (es.map (fun e => (file e).tag (env.expname2conf_str e) e)),
          es.map (fun e => (⟨ff, fp, e⟩ : FKey))) := by
  intro es
  induction es with
  | nil => intro _; rfl
  | cons e es ih =>
      intro hs
      have he := hs e (List.mem_cons_self _ _)
      have hrest := ih (fun x hx => hs x (List.mem_cons_of_mem _ hx))
      simp [openTagged, he, hrest, Except.map]

theorem Dataset.lookup_selTimeSlice (d : Dataset) (sl : Nat × Nat)
    (v : String) (t : Nat) (i c : String) :
    (d.selTimeSlice sl).lookup v t i c =
      if sl.1 ≤ t ∧ t ≤ sl.2 then d.lookup v t i c else none := by
  by_cases hin : sl.1 ≤ t ∧ t ≤ sl.2 <;>
    simp [Dataset.selTimeSlice, Dataset.lookup, Dataset.definedAt, hin,
      List.mem_filter]

/-- Dataset equality up to reordering of the `idname` axis: equal time
axis, variables and `ct` axis, a permuted `idname` axis, and pointwise
equal values and experiment names. -/
def EquivUpToIdnameReorder (a b : Dataset) : Prop :=
  a.timeAxis = b.timeAxis ∧ List.Perm a.idnameAxis b.idnameAxis ∧
    a.varNames = b.varNames ∧ a.ctAxis = b.ctAxis ∧
    (∀ (v : String) (t : Nat) (i c : String),
      a.lookup v t i c = b.lookup v t i c) ∧
    (∀ i : String, a.expname i = b.expname i)

/-- Both computations succeed, with results equal up to reordering of the
`idname` axis. -/
def okEquivUpToReorder : Except XErr Dataset → Except XErr Dataset → Prop
  | .ok a, .ok b => EquivUpToIdnameReorder a b
  | _, _ => False

theorem equivUpToIdnameReorder_refl (d : Dataset) :
    EquivUpToIdnameReorder d d :=
  ⟨rfl, List.Perm.refl _, rfl, rfl, fun _ _ _ _ => rfl, fun _ => rfl⟩

/-- Reversal of a three-way disjunction (the shape the axis-membership
goals take). -/
theorem or3_comm (P Q R : Prop) : (P ∨ Q ∨ R) ↔ (R ∨ Q ∨ P) := by
  tauto

/-- The fields of an `xr.merge` of two or more datasets: sorted-union
axes, and first-defined-wins values and experiment names. -/
theorem mergeDsets_big (l : List Dataset) (h : 2 ≤ l.length) :
    (mergeDsets l).timeAxis = canon ((l.map Dataset.timeAxis).flatten) ∧
      (mergeDsets l).idnameAxis = canon ((l.map Dataset.idnameAxis).flatten) ∧
      (mergeDsets l).ctAxis = ctAll l ∧
      (mergeDsets l).varNames = canon ((l.map Dataset.varNames).flatten) ∧
      (∀ i : String, (mergeDsets l).expname i =
        match l.find? (fun x => (x.expname i).isSome) with
        | some x => x.expname i
        | none => none) ∧
      (∀ (v : String) (t : Nat) (i c : String), (mergeDsets l).data v t i c =
        match l.find? (fun x => x.definedAt v t i c) with
        | some x => x.data v t i c
        | none => none) := by
  match l, h with
  | x :: y :: r, _ =>
      exact ⟨rfl, rfl, rfl, rfl, fun i => rfl, fun v t i c => rfl⟩

/-- Claim C8: for an in-range set whose per-experiment files all exist and
whose normalized identities are distinct, collecting the set with the
experiment list reversed in the resolver yields a dataset equal to the
original collection up to reordering of the `idname` axis — the
per-experiment union-merge of `collect_sim_ave_cre4set` is
order-independent on `idname`, with no assumption on the file schemas:
time axes, variables and `ct` dimensions may differ freely between the
experiments. -/
theorem collect_sim_merge_order_independent (env : Env) (n : Int)
    (fp ff : String) (lo hi : Int) (file : String → RawData)
    (hlo : lo ≤ n) (hhi : n ≤ hi)
    (hfile : ∀ e ∈ env.gather_simset n, env.fs ⟨ff, fp, e⟩ = some (file e))
    (hnodup : ((env.gather_simset n).map env.expname2conf_str).Nodup) :
    okEquivUpToReorder
      (collect_sim_ave_cre4set (reverseResolver env) n fp ff (lo, hi)).1
      (collect_sim_ave_cre4set env n fp ff (lo, hi)).1 := by
  have hrange : ¬(n < lo ∨ n > hi) := by omega
  have hfile2 : ∀ e ∈ (env.gather_simset n).reverse,
      (reverseResolver env).fs ⟨ff, fp, e⟩ = some (file e) := by
    intro e he
    exact hfile e (List.mem_reverse.mp he)
  have hopen1 := openTagged_ok env ff fp file (env.gather_simset n) hfile
  have hopen2 := openTagged_ok (reverseResolver env) ff fp file
    ((env.gather_simset n).reverse) hfile2
  have hconf : (reverseResolver env).expname2conf_str = env.expname2conf_str :=
    rfl
  have hsd : (reverseResolver env).set_dateslices = env.set_dateslices := rfl
  rw [hconf] at hopen2
  have hc1 : (collect_sim_ave_cre4set env n fp ff (lo, hi)).1 =
      .ok ((mergeDsets ((env.gather_simset n).map
        (fun e => (file e).tag (env.expname2conf_str e) e))).selTimeSlice
          (env.set_dateslices n)) := by
    unfold collect_sim_ave_cre4set
    rw [if_neg hrange]
    simp only [hopen1]
  have hc2 : (collect_sim_ave_cre4set (reverseResolver env) n fp ff (lo, hi)).1 =
      .ok ((mergeDsets (((env.gather_simset n).reverse).map
        (fun e => (file e).tag (env.expname2conf_str e) e))).selTimeSlice
          (env.set_dateslices n)) := by
    unfold collect_sim_ave_cre4set
    rw [if_neg hrange]
    have hgs : (reverseResolver env).gather_simset n
        = (env.gather_simset n).reverse := rfl
    simp only [hgs, hsd, hopen2]
  rw [hc1, hc2]
  show EquivUpToIdnameReorder _ _
  obtain ⟨es, hes⟩ : ∃ es, env.gather_simset n = es := ⟨_, rfl⟩
  rw [hes] at hnodup
  rw [hes]
  rcases es with _ | ⟨e0, _ | ⟨e1, rest⟩⟩
  · exact equivUpToIdnameReorder_refl _
  · exact equivUpToIdnameReorder_refl _
  · have hlen1 : 2 ≤ ((e0 :: e1 :: rest).map
        (fun e => (file e).tag (env.expname2conf_str e) e)).length := by
      simp
    have hlen2 : 2 ≤ (((e0 :: e1 :: rest).reverse).map
        (fun e => (file e).tag (env.expname2conf_str e) e)).length := by
      simp
    obtain ⟨ht1, hi1, hct1, hv1, he1, hd1⟩ := mergeDsets_big _ hlen1
    obtain ⟨ht2, hi2, hct2, hv2, he2, hd2⟩ := mergeDsets_big _ hlen2
    have htime : (mergeDsets (((e0 :: e1 :: rest).reverse).map
        (fun e => (file e).tag (env.expname2conf_str e) e))).timeAxis
        = (mergeDsets ((e0 :: e1 :: rest).map
            (fun e => (file e).tag (env.expname2conf_str e) e))).timeAxis := by
      rw [ht2, ht1]
      apply canon_eq_of_mem
      intro x
      simp [List.mem_flatten]
      exact or3_comm _ _ _
    have hid : (mergeDsets (((e0 :: e1 :: rest).reverse).map
        (fun e => (file e).tag (env.expname2conf_str e) e))).idnameAxis
        = (mergeDsets ((e0 :: e1 :: rest).map
            (fun e => (file e).tag (env.expname2conf_str e) e))).idnameAxis := by
      rw [hi2, hi1]
      apply canon_eq_of_mem
      intro x
      simp [List.mem_flatten]
      exact or3_comm _ _ _
    have hvar : (mergeDsets (((e0 :: e1 :: rest).reverse).map
        (fun e => (file e).tag (env.expname2conf_str e) e))).varNames
        = (mergeDsets ((e0 :: e1 :: rest).map
            (fun e => (file e).tag (env.expname2conf_str e) e))).varNames := by
      rw [hv2, hv1]
      apply canon_eq_of_mem
      intro x
      simp [List.mem_flatten]
      exact or3_comm _ _ _
    have hct : (mergeDsets (((e0 :: e1 :: rest).reverse).map
        (fun e => (file e).tag (env.expname2conf_str e) e))).ctAxis
        = (mergeDsets ((e0 :: e1 :: rest).map
            (fun e => (file e).tag (env.expname2conf_str e) e))).ctAxis := by
      rw [hct2, hct1]
      unfold ctAll
      have hfm : (((e0 :: e1 :: rest).reverse).map
          (fun e => (file e).tag (env.expname2conf_str e) e)).filterMap
            Dataset.ctAxis
          = (((e0 :: e1 :: rest).map
              (fun e => (file e).tag (env.expname2conf_str e) e)).filterMap
                Dataset.ctAxis).reverse := by
        rw [List.filterMap_map, List.filterMap_map, List.filterMap_reverse]
      rw [hfm]
      by_cases hemp : ((e0 :: e1 :: rest).map
          (fun e => (file e).tag (env.expname2conf_str e) e)).filterMap
            Dataset.ctAxis = []
      · rw [hemp]
        simp
      · have hemp2 : (((e0 :: e1 :: rest).map
            (fun e => (file e).tag (env.expname2conf_str e) e)).filterMap
              Dataset.ctAxis).reverse ≠ [] := by
          simpa using hemp
        rw [if_neg hemp2, if_neg hemp]
        congr 1
        apply canon_eq_of_mem
        intro x
        simp [List.mem_flatten]
    have hfind : ∀ (p : Dataset → Bool) (i : String),
        (∀ e, p ((file e).tag (env.expname2conf_str e) e) = true →
          env.expname2conf_str e = i) →
        (((e0 :: e1 :: rest).reverse).map
            (fun e => (file e).tag (env.expname2conf_str e) e)).find? p
          = ((e0 :: e1 :: rest).map
              (fun e => (file e).tag (env.expname2conf_str e) e)).find? p := by
      intro p i hp
      rw [List.find?_map, List.find?_map]
      congr 1
      exact find?_reverse_of_unique (e0 :: e1 :: rest) _
        (fun x hx y hy hpx hpy =>
          List.inj_on_of_nodup_map hnodup hx hy
            (by rw [hp x hpx, hp y hpy]))
    have hdata : ∀ (v : String) (t : Nat) (i c : String),
        (mergeDsets (((e0 :: e1 :: rest).reverse).map
          (fun e => (file e).tag (env.expname2conf_str e) e))).data v t i c
        = (mergeDsets ((e0 :: e1 :: rest).map
            (fun e => (file e).tag (env.expname2conf_str e) e))).data v t i c := by
      intro v t i c
      rw [hd2 v t i c, hd1 v t i c,
        hfind (fun x => x.definedAt v t i c) i (by
          intro e hpe
          simp only [Dataset.definedAt, Bool.and_eq_true, decide_eq_true_eq,
            RawData.tag_idnameAxis, List.mem_singleton] at hpe
          exact hpe.1.2.symm)]
    have hexp : ∀ i : String,
        (mergeDsets (((e0 :: e1 :: rest).reverse).map
          (fun e => (file e).tag (env.expname2conf_str e) e))).expname i
        = (mergeDsets ((e0 :: e1 :: rest).map
            (fun e => (file e).tag (env.expname2conf_str e) e))).expname i := by
      intro i
      rw [he2 i, he1 i,
        hfind (fun x => (x.expname i).isSome) i (by
          intro e hpe
          by_cases hieq : i = env.expname2conf_str e
          · exact hieq.symm
          · exfalso
            simp [RawData.tag, hieq] at hpe)]
    have hdef : ∀ (v : String) (t : Nat) (i c : String),
        (mergeDsets (((e0 :: e1 :: rest).reverse).map
          (fun e => (file e).tag (env.expname2conf_str e) e))).definedAt v t i c
        = (mergeDsets ((e0 :: e1 :: rest).map
            (fun e => (file e).tag (env.expname2conf_str e) e))).definedAt
              v t i c := by
      intro v t i c
      unfold Dataset.definedAt
      rw [htime, hid, hct, hvar]
    have hlookup : ∀ (v : String) (t : Nat) (i c : String),
        (mergeDsets (((e0 :: e1 :: rest).reverse).map
          (fun e => (file e).tag (env.expname2conf_str e) e))).lookup v t i c
        = (mergeDsets ((e0 :: e1 :: rest).map
            (fun e => (file e).tag (env.expname2conf_str e) e))).lookup
              v t i c := by
      intro v t i c
      unfold Dataset.lookup
      rw [hdef v t i c, hdata v t i c]
    refine ⟨?_, ?_, ?_, ?_, ?_, ?_⟩
    · simp only [Dataset.selTimeSlice_timeAxis]
      rw [htime]
    · simp only [Dataset.selTimeSlice_idnameAxis]
      rw [hid]
    · simp only [Dataset.selTimeSlice_varNames]
      rw [hvar]
    · simp only [Dataset.selTimeSlice_ctAxis]
      rw [hct]
    · intro v t i c
      rw [Dataset.lookup_selTimeSlice, Dataset.lookup_selTimeSlice,
        hlookup v t i c]
    · intro i
      simp only [Dataset.selTimeSlice_expname]
      rw [hexp i]
/-- Witness for C8: the two-experiment environment `envW8`, whose files
have different time axes, variables and `ct` dimensions, collected in both
orders. -/
theorem collect_sim_merge_order_independent_witness :
    okEquivUpToReorder
      (collect_sim_ave_cre4set (reverseResolver envW8) 1 "" "default" (1, 4)).1
      (collect_sim_ave_cre4set envW8 1 "" "default" (1, 4)).1 :=
  collect_sim_merge_order_independent envW8 1 "" "default" 1 4 fileW
    (by decide) (by decide)
    (by
      intro e he
      have he2 : e = "expA" ∨ e = "expB" := by simpa [envW8] using he
      rcases he2 with h | h <;> subst h <;> rfl)
    (by decide)

end NawdexAnalysis
